import Mathlib

/-!
Shallow embedding of the `cybercog` repository's tool-calling orchestration
core (src/aifunc.py, src/function_wrapper.py, src/main.py), together with
proofs about the claims of its specification.

Modelling conventions:
* Python values that flow through `json.dumps` are modelled by `JValue`.
* A tool handler is a function from a keyword-argument bag to
  `Except String PyResult`: `.error msg` models the handler raising an
  exception whose `str` is `msg`, `.ok` models a normal return.
* `asyncio.gather(*tasks)` is modelled by `gatherResults`: the individual
  tasks complete in an arbitrary completion order (the `sched` list of
  indices), and `gather` re-assembles the results in task-submission order,
  exactly as `asyncio.gather` guarantees.
* Raised Python exceptions escaping a function are modelled by the `.error`
  constructor of `Except String _` in that function's result type; a normal
  `return` is `.ok`.
-/

namespace CyberCog

/-- JSON-serializable Python value (argument of `json.dumps`). -/
inductive JValue where
  | jstr (s : String)
  | jnum (n : Int)
  | jbool (b : Bool)
  | jnull
  | jarr (xs : List JValue)
  | jobj (fields : List (String × JValue))

/-- A hexadecimal digit character, as produced by Python's `json` encoder. -/
def hexDigitChar (n : Nat) : Char :=
  if n < 10 then Char.ofNat (48 + n) else Char.ofNat (87 + n)

/-- Four-digit lowercase hex rendering used in `\uXXXX` escapes. -/
def hex4 (n : Nat) : String :=
  String.mk [hexDigitChar (n / 4096 % 16), hexDigitChar (n / 256 % 16),
             hexDigitChar (n / 16 % 16), hexDigitChar (n % 16)]

/-- Escape of one character inside a JSON string literal, following
`json.dumps` with its default `ensure_ascii=True`. -/
def escapeChar (c : Char) : String :=
  if c = '"' then "\\\""
  else if c = '\\' then "\\\\"
  else if c = '\n' then "\\n"
  else if c = '\r' then "\\r"
  else if c = '\t' then "\\t"
  else if c.toNat = 8 then "\\b"
  else if c.toNat = 12 then "\\f"
  else if c.toNat < 32 then "\\u" ++ hex4 c.toNat
  else if c.toNat < 128 then String.mk [c]
  else if c.toNat < 65536 then "\\u" ++ hex4 c.toNat
  else
    "\\u" ++ hex4 (55296 + (c.toNat - 65536) / 1024) ++
    "\\u" ++ hex4 (56320 + (c.toNat - 65536) % 1024)

/-- JSON string-literal escaping (`json.dumps` on the characters of `s`). -/
def jsonEscape (s : String) : String :=
  String.join (s.data.map escapeChar)

mutual

/-- `json.dumps(v)` with Python's default separators: `", "` between
items/fields and `": "` between a key and its value. -/
def jdump : JValue → String
  | .jstr s => "\"" ++ jsonEscape s ++ "\""
  | .jnum n => toString n
  | .jbool true => "true"
  | .jbool false => "false"
  | .jnull => "null"
  | .jarr xs => "[" ++ jdumpList xs ++ "]"
  | .jobj fs => "\x7b" ++ jdumpFields fs ++ "\x7d"

/-- Comma-separated dump of a JSON array's elements. -/
def jdumpList : List JValue → String
  | [] => ""
  | [x] => jdump x
  | x :: y :: xs => jdump x ++ ", " ++ jdumpList (y :: xs)

/-- Comma-separated dump of a JSON object's fields. -/
def jdumpFields : List (String × JValue) → String
  | [] => ""
  | [(k, v)] => "\"" ++ jsonEscape k ++ "\": " ++ jdump v
  | (k, v) :: f :: fs =>
      "\"" ++ jsonEscape k ++ "\": " ++ jdump v ++ ", " ++ jdumpFields (f :: fs)

end

/-- Value returned by a tool handler: a Python `str` passes through
`execute_function_by_name` unchanged, anything else goes through
`json.dumps`. -/
inductive PyResult where
  | pstr (s : String)
  | pval (v : JValue)

/-- A tool handler: keyword arguments to outcome.  `.error msg` models the
handler raising an exception with message `msg` (`str(e) = msg`). -/
abbrev Handler := List (String × JValue) → Except String PyResult

/-- The module-level `callable_registry` dict of function_wrapper.py,
modelled as an association list with unique keys (Python dict). -/
abbrev CallableRegistry := List (String × Handler)

/-- src/aifunc.py, `execute_function_by_name` (lines 31-49).  The whole body
is wrapped in `try/except Exception`, so the function always returns a
string payload: a missing name raises `ValueError(f"Function
{function_name} not found in registry")` which the same handler turns into
`json.dumps({"error": str(e)})`, and a handler exception is likewise
converted.  Non-string results are serialized with `json.dumps`. -/
def execute_function_by_name (registry : CallableRegistry)
    (function_name : String) (kwargs : List (String × JValue)) : String :=
  match List.lookup function_name registry with
  | some function_to_call =>
      match function_to_call kwargs with
      | .ok (.pstr s) => s
      | .ok (.pval v) => jdump v
      | .error e => jdump (.jobj [("error", .jstr e)])
  | none =>
      jdump (.jobj [("error",
        .jstr ("Function " ++ function_name ++ " not found in registry"))])

/-! ### Concurrency model for `asyncio.gather`

`asyncio.gather(*tasks)` runs the tasks concurrently and returns their
results in the order the tasks were passed in, regardless of the order in
which they complete.  We model a completion schedule as a list of task
indices (`sched`); the tasks produce `(index, result)` pairs in completion
order, and `gather` reads the result of task `0`, task `1`, ... back out of
that completion log. -/

/-- The `(index, result)` pairs produced in completion order `sched`. -/
def completionResults {α β : Type} (exec : α → β) (calls : List α)
    (sched : List Nat) : List (Nat × β) :=
  sched.filterMap fun i => (calls[i]?).map fun c => (i, exec c)

/-- `asyncio.gather`: results in task-submission order, recovered from the
completion log. -/
def gatherResults {α β : Type} (exec : α → β) (calls : List α)
    (sched : List Nat) : List β :=
  (List.range calls.length).filterMap fun i =>
    List.lookup i (completionResults exec calls sched)

/-- One entry of the `tool_uses` argument of `multi_tool_use_parallel`
(src/function_wrapper.py lines 148-163): a dict with keys
`recipient_name` (the spec calls this field `toolName`) and `parameters`. -/
structure ToolUse where
  recipient_name : String
  parameters : List (String × JValue)

/-- `asyncio.gather` over tasks that may raise (its default
`return_exceptions=False`): if any task raises, the exception of the
earliest-completing failed task propagates out of the gather; otherwise
the results come back in task-submission order (`sched` is the completion
order, as in `gatherResults`). -/
def gatherExcept {α β : Type} (exec : α → Except String β) (calls : List α)
    (sched : List Nat) : Except String (List β) :=
  match ((completionResults exec calls sched).filterMap fun p =>
      match p.2 with
      | .error e => some e
      | .ok _ => none).head? with
  | some e => .error e
  | none =>
      .ok ((List.range calls.length).filterMap fun i =>
        (List.lookup i (completionResults exec calls sched)).bind fun r =>
          match r with
          | .ok b => some b
          | .error _ => none)

/-- The exception message of the body of `execute_tool`
(function_wrapper.py line 160): it evaluates the free name
`execute_function_by_name`, but function_wrapper.py imports only `ast`,
`inspect`, `os`, `sys`, `importlib.util`, `logging`, `asyncio` and `types`
(lines 1-8), aifunc.py merely does `from function_wrapper import tools,
callable_registry` and nothing ever injects aifunc's
`execute_function_by_name` into function_wrapper's module namespace.
Python resolves a function's free names in its defining module's globals
at call time, so the lookup raises `NameError` with this message on every
execution. -/
def nameErrorUnboundInvoker : String :=
  "name 'execute_function_by_name' is not defined"

/-- src/function_wrapper.py, the inner coroutine `execute_tool` of
`multi_tool_use_parallel` (lines 157-160): it reads
`tool_use['recipient_name']` and `tool_use['parameters']` (both present on
a well-formed entry) and then evaluates the unbound name
`execute_function_by_name`, raising `NameError` — the intended invoker
call never happens. -/
def execute_tool (tool_use : ToolUse) : Except String String :=
  .error nameErrorUnboundInvoker

/-- src/function_wrapper.py, `multi_tool_use_parallel` (lines 148-163):
fans `execute_tool` out over the entries with `asyncio.gather`.  Because
every `execute_tool` raises `NameError` (see `nameErrorUnboundInvoker`),
the gather — and with it the whole function — raises on every non-empty
`tool_uses` list; only the degenerate empty list returns (an empty result
list, since no task body ever runs). -/
def multi_tool_use_parallel (sched : List Nat) (tool_uses : List ToolUse) :
    Except String (List String) :=
  gatherExcept execute_tool tool_uses sched

/-! ### Transcript and model-response data (src/aifunc.py) -/

/-- One content element of an Anthropic message dict as built by `ai`:
a text block, a `tool_use` block, or a `tool_result` block.  A
caller-supplied history message whose `content` is a plain string is
modelled as a single `text` element. -/
inductive MContent where
  | text (text : String)
  | tool_use (id : String) (name : String) (input : List (String × JValue))
  | tool_result (tool_use_id : String) (content : String)

/-- One message dict of the `messages` list: `{"role": ..., "content": ...}`. -/
structure Message where
  role : String
  content : List MContent

/-- One content block of an Anthropic API response: `TextBlock` or
`ToolUseBlock` (anthropic.types). -/
inductive ContentBlock where
  | textBlock (text : String)
  | toolUseBlock (id : String) (name : String) (input : List (String × JValue))

/-- One entry of the `function_calls` list built by `ai` from the
`ToolUseBlock`s (src/aifunc.py lines 122-127). -/
structure FunctionCall where
  name : String
  arguments : List (String × JValue)
  id : String

/-- The value `ai` returns normally: `(True, {"response": r})` or
`(False, {"error": e})` (src/aifunc.py lines 113, 135, 186, 194, 196). -/
inductive AiOutcome where
  | success (response : String)
  | failure (error : String)

/-- The environment the orchestration loop runs against.
`respond messages n` is the outcome of the `n`-th raw attempt (0-based) of
one Anthropic API call for transcript `messages`: `.error msg` models the
attempt raising, `.ok blocks` a successful response with content `blocks`.
`sched messages` is the completion order of the concurrent tool executions
dispatched in the loop iteration whose transcript is `messages`. -/
structure ModelEnv where
  respond : List Message → Nat → Except String (List ContentBlock)
  sched : List Message → List Nat

/-- src/aifunc.py, `anthropic_chat_completion_request` (lines 51-86),
decorated with
`@retry(wait=wait_random_exponential(multiplier=1, max=40), stop=stop_after_attempt(3))`:
up to 3 attempts total; the randomized waits between attempts are real-time
behaviour and are not part of the state model.  When all 3 attempts raise,
tenacity raises a `RetryError` wrapping the last attempt's exception,
modelled here as `.error` with the last attempt's message. -/
def anthropic_chat_completion_request (env : ModelEnv)
    (messages : List Message) : Except String (List ContentBlock) :=
  match env.respond messages 0 with
  | .ok r => .ok r
  | .error _ =>
    match env.respond messages 1 with
    | .ok r => .ok r
    | .error _ => env.respond messages 2

/-- Python's `str.strip()`: drop leading and trailing whitespace
characters.  (Executable; `String.trim` from the library is definitionally
opaque, so the model carries its own definition.) -/
def pyStrip (s : String) : String :=
  String.mk
    (((s.data.dropWhile Char.isWhitespace).reverse.dropWhile
        Char.isWhitespace).reverse)

/-- The fold of src/aifunc.py lines 119-121: concatenation of the `text`
fields of the `TextBlock`s, in encounter order. -/
def collectText (blocks : List ContentBlock) : String :=
  blocks.foldl
    (fun acc b => match b with
      | .textBlock t => acc ++ t
      | .toolUseBlock _ _ _ => acc)
    ""

/-- The `function_calls` list of src/aifunc.py lines 117-127: one entry per
`ToolUseBlock`, in encounter order. -/
def collectCalls (blocks : List ContentBlock) : List FunctionCall :=
  blocks.filterMap fun b =>
    match b with
    | .textBlock _ => none
    | .toolUseBlock id name input => some ⟨name, input, id⟩

/-- `func_call["arguments"].pop("spinner", None)` (src/aifunc.py line 155):
the `spinner` key is removed before the arguments are recorded in the
assistant message (the dict has unique keys). -/
def removeSpinner (args : List (String × JValue)) : List (String × JValue) :=
  args.filter fun p => p.1 ≠ "spinner"

/-- `new_message_content` of src/aifunc.py lines 147-161: the stripped
accumulated text if non-empty, followed by one `tool_use` entry per
function call, in original order. -/
def assistantContent (text_content : String) (function_calls : List FunctionCall) :
    List MContent :=
  (if pyStrip text_content ≠ "" then [MContent.text (pyStrip text_content)] else [])
    ++ function_calls.map fun fc =>
        MContent.tool_use fc.id fc.name (removeSpinner fc.arguments)

/-- The body of the local coroutine `execute_function` (src/aifunc.py lines
138-142): returns the `{"id": ..., "result": ...}` pair for one call. -/
def execute_function (registry : CallableRegistry) (func_call : FunctionCall) :
    String × String :=
  (func_call.id,
   execute_function_by_name registry func_call.name func_call.arguments)

/-- `function_results = await asyncio.gather(*)` (src/aifunc.py line 144):
the executions complete in order `sched`; gather returns them in
submission order. -/
def functionResults (registry : CallableRegistry)
    (function_calls : List FunctionCall) (sched : List Nat) :
    List (String × String) :=
  gatherResults (execute_function registry) function_calls sched

/-- The loop of src/aifunc.py lines 169-179: one `{"role": "user"}` message
per `(func_call, result)` pair of `zip(function_calls, function_results)`,
holding a single `tool_result` block that ties `func_call["id"]` to
`result["result"]`. -/
def toolResultMessages (function_calls : List FunctionCall)
    (function_results : List (String × String)) : List Message :=
  (function_calls.zip function_results).map fun p =>
    { role := "user",
      content := [MContent.tool_result p.1.id p.2.2] }

/-- The `while function_call_count < max_function_calls` loop of
src/aifunc.py lines 106-181 followed by the final no-dispatch call (lines
183-196).  The overall result is `Except String (List Message × AiOutcome)`:
`.error e` models an exception with message `e` escaping `ai` (in
particular a gateway `RetryError` from line 110 or 184, which no
`try/except` in `ai` intercepts), and `.ok (messages, outcome)` models a
normal return, paired with the final state of the `messages` list the
caller's history object aliases.  The `if not chat_response` guards (lines
111, 185) can never fire, because a successful API call returns a response
object, so they are not represented.  Note that `text_content` is passed
unchanged into the next iteration: the source never resets it. -/
def aiLoop (env : ModelEnv) (registry : CallableRegistry)
    (max_function_calls : Nat) (messages : List Message)
    (text_content : String) (function_call_count : Nat) :
    Except String (List Message × AiOutcome) :=
  if h : function_call_count < max_function_calls then
    match anthropic_chat_completion_request env messages with
    | .error e => .error e
    | .ok content =>
      let text_content2 := text_content ++ collectText content
      let function_calls := collectCalls content
      if hfc : function_calls.isEmpty then
        .ok (messages, .success (pyStrip text_content2))
      else
        let function_results :=
          functionResults registry function_calls (env.sched messages)
        let new_message_content := assistantContent text_content2 function_calls
        let messages2 :=
          if !new_message_content.isEmpty then
            messages ++ [{ role := "assistant", content := new_message_content }]
          else messages
        let messages3 := messages2 ++ toolResultMessages function_calls function_results
        aiLoop env registry max_function_calls messages3 text_content2
          (function_call_count + function_calls.length)
  else
    match anthropic_chat_completion_request env messages with
    | .error e => .error e
    | .ok content =>
      let final_text_content := collectText content
      if final_text_content = "" then
        .ok (messages, .failure "No text content in Anthropic final response")
      else
        .ok (messages, .success (pyStrip final_text_content))
termination_by max_function_calls - function_call_count
decreasing_by
  simp_wf
  have hne : collectCalls content ≠ [] := by
    intro hnil
    apply hfc
    show (collectCalls content).isEmpty = true
    rw [hnil]
    rfl
  have hlen : 0 < (collectCalls content).length := List.length_pos.mpr hne
  exact Nat.sub_lt_sub_left h (by omega)

/-- src/aifunc.py, `ai` (lines 88-196).  `username` and `query` are unused
by the source body (the shell has already appended the query to the
history); an empty `anthropic_token` raises `ValueError`; `history=None`
becomes a fresh empty list, and otherwise `messages` aliases the caller's
`history` list. -/
def ai (env : ModelEnv) (registry : CallableRegistry)
    (username : String) (query : String) (anthropic_token : String)
    (history : Option (List Message)) :
    Except String (List Message × AiOutcome) :=
  if anthropic_token = "" then .error "Anthropic token is required"
  else
    let messages := history.getD []
    aiLoop env registry 6 messages "" 0

/-- The result dict of src/main.py, `process_shell_query` (lines 74-111). -/
inductive ShellResult where
  | explanation (s : String)
  | error (s : String)

/-- src/main.py, `process_shell_query` (lines 74-111): awaits `ai` inside a
`try/except`.  On `(True, {"response": r})` it returns
`(True, {"explanation": r})` (the `response` key is always present and not
`None` on success); on `(False, {"error": e})` it prints and returns
`(False, {"error": e})`; an exception `e` escaping `ai` is caught and
converted to `(False, {"error": f"Error: {str(e)}"})`. -/
def process_shell_query (env : ModelEnv) (registry : CallableRegistry)
    (username : String) (query : String) (anthropic_token : String)
    (conversation_history : Option (List Message)) : Bool × ShellResult :=
  match ai env registry username query anthropic_token conversation_history with
  | .ok (_, .success r) => (true, .explanation r)
  | .ok (_, .failure e) => (false, .error e)
  | .error e => (false, .error ("Error: " ++ e))

/-! ### Registration (src/function_wrapper.py, `FunctionWrapper.__init__`) -/

/-- The `function` part of one entry of the module-level `tools` list. -/
structure FunctionInfo where
  name : String
  description : String

/-- The module-level registries of src/function_wrapper.py (lines 10-11):
the `tools` list of descriptors and the `callable_registry` dict. -/
structure RegState where
  tools : List FunctionInfo
  callable_registry : CallableRegistry

/-- Python dict assignment `d[k] = v`: replaces the value in place if the
key is present (keeping its position), appends otherwise. -/
def dictInsert (m : CallableRegistry) (k : String) (v : Handler) :
    CallableRegistry :=
  if m.any (fun p => p.1 == k) then
    m.map fun p => if p.1 == k then (k, v) else p
  else m ++ [(k, v)]

/-- src/function_wrapper.py, `FunctionWrapper.__init__` (lines 13-18):
`callable_registry[func.__name__] = func; tools.append({...})`.  The
descriptor `info` stands for the result of `extract_function_info` (an
AST/docstring introspection whose details the claims do not touch); `name`
is `func.__name__`, which every Python function object carries.  There is
no duplicate check and no error path: the dict assignment silently
overwrites an existing entry and the descriptor is appended regardless. -/
def functionWrapperInit (st : RegState) (name : String) (func : Handler)
    (info : FunctionInfo) : RegState :=
  { callable_registry := dictInsert st.callable_registry name func,
    tools := st.tools ++ [info] }

/-! ### Observations on transcripts -/

/-- Whether a message carries a `tool_result` block (i.e. is one of the
tool-result turns appended by the loop). -/
def isToolResultMessage (m : Message) : Bool :=
  m.content.any fun c =>
    match c with
    | .tool_result _ _ => true
    | _ => false

/-- Number of tool-result turns in a transcript; each tool call the loop
dispatches appends exactly one such turn, so this counts the tool calls
issued (and executed) during a run. -/
def toolResultCount (ms : List Message) : Nat :=
  (ms.filter isToolResultMessage).length

/-- The messages appended by one tool-bearing iteration (src/aifunc.py
lines 146-179): the single assistant message (always non-empty here, since
`function_calls` is non-empty) followed by one tool-result message per
call. -/
def stepMessages (env : ModelEnv) (reg : CallableRegistry)
    (msgs : List Message) (tc : String) (content : List ContentBlock) :
    List Message :=
  (if !(assistantContent (tc ++ collectText content) (collectCalls content)).isEmpty then
      msgs ++ [{ role := "assistant",
                 content := assistantContent (tc ++ collectText content)
                   (collectCalls content) }]
    else msgs)
  ++ toolResultMessages (collectCalls content)
      (functionResults reg (collectCalls content) (env.sched msgs))

/-- A well-formed completion schedule: whenever the gateway returns `r` for
transcript `msgs`, every index of the tool calls of `r` eventually
completes (appears in the schedule) — every `asyncio` task runs. -/
def schedValid (env : ModelEnv) : Prop :=
  ∀ msgs r, anthropic_chat_completion_request env msgs = .ok r →
    ∀ i, i < (collectCalls r).length → i ∈ env.sched msgs

/-! ### Concrete environments, registries and transcripts used to
instantiate the theorems on small inputs -/

/-- A user message carrying the query, as the shell appends it. -/
def userMsg (q : String) : Message :=
  { role := "user", content := [MContent.text q] }

/-- A handler that returns the fixed string `"r"`. -/
def okHandler : Handler := fun _ => .ok (.pstr "r")

/-- Registry with the single tool `t`. -/
def regT : CallableRegistry := [("t", okHandler)]

/- C1 gadgets. -/

/-- Model that requests 7 tool calls on its first turn, then text. -/
def c1env7 : ModelEnv :=
  { respond := fun msgs _ =>
      if msgs.length ≤ 1 then
        .ok [ContentBlock.toolUseBlock "y1" "t" [],
             ContentBlock.toolUseBlock "y2" "t" [],
             ContentBlock.toolUseBlock "y3" "t" [],
             ContentBlock.toolUseBlock "y4" "t" [],
             ContentBlock.toolUseBlock "y5" "t" [],
             ContentBlock.toolUseBlock "y6" "t" [],
             ContentBlock.toolUseBlock "y7" "t" []]
      else .ok [ContentBlock.textBlock "done"],
    sched := fun _ => [0, 1, 2, 3, 4, 5, 6] }

/-- A tool-result turn of the runs below. -/
def resMsg (id : String) : Message :=
  { role := "user", content := [MContent.tool_result id "r"] }

/-- The transcript `ai` leaves behind against `c1env7`. -/
def c1transcript7 : List Message :=
  [userMsg "q",
   { role := "assistant", content :=
      [MContent.tool_use "y1" "t" [], MContent.tool_use "y2" "t" [],
       MContent.tool_use "y3" "t" [], MContent.tool_use "y4" "t" [],
       MContent.tool_use "y5" "t" [], MContent.tool_use "y6" "t" [],
       MContent.tool_use "y7" "t" []] },
   resMsg "y1", resMsg "y2", resMsg "y3", resMsg "y4", resMsg "y5",
   resMsg "y6", resMsg "y7"]

/-- Model that requests exactly 2 tool calls on every loop turn and text on
the final forced call; its completion schedule finishes task `1` before
task `0`. -/
def c1env2 : ModelEnv :=
  { respond := fun msgs _ =>
      if msgs.length ≤ 7 then
        .ok [ContentBlock.toolUseBlock "x1" "t" [],
             ContentBlock.toolUseBlock "x2" "t" []]
      else .ok [ContentBlock.textBlock "done"],
    sched := fun _ => [1, 0] }

/-- The assistant turn of each tool-bearing iteration against `c1env2`. -/
def c1assistant2 : Message :=
  { role := "assistant", content :=
      [MContent.tool_use "x1" "t" [], MContent.tool_use "x2" "t" []] }

/-- The transcript `ai` leaves behind against `c1env2`: exactly three
tool-bearing iterations of one assistant turn and two tool-result turns. -/
def c1transcript2 : List Message :=
  [userMsg "q",
   c1assistant2, resMsg "x1", resMsg "x2",
   c1assistant2, resMsg "x1", resMsg "x2",
   c1assistant2, resMsg "x1", resMsg "x2"]

/- C2 gadgets. -/

/-- A handler that always raises `Exception("boom")`. -/
def throwHandler : Handler := fun _ => .error "boom"

/-- Registry whose only tool always raises. -/
def c2reg : CallableRegistry := [("t", throwHandler)]

/-- A model that immediately answers with text. -/
def c2env : ModelEnv :=
  { respond := fun _ _ => .ok [ContentBlock.textBlock "hi"],
    sched := fun _ => [] }

/- C3 gadgets. -/

/-- A model whose response has no content at all: no tool calls, no text. -/
def c3envEmpty : ModelEnv :=
  { respond := fun _ _ => .ok [], sched := fun _ => [] }

/-- A model that requests one tool call on every turn and never produces
text, including on the final forced call. -/
def c3envTool : ModelEnv :=
  { respond := fun _ _ => .ok [ContentBlock.toolUseBlock "i" "t" []],
    sched := fun _ => [0] }

/- C4 gadgets. -/

/-- Two-tool registry for order-of-results runs. -/
def c4reg : CallableRegistry :=
  [("A", fun _ => .ok (.pstr "result-A")),
   ("B", fun _ => .ok (.pstr "result-B"))]

/-- The two tool calls of one model turn. -/
def c4calls : List FunctionCall :=
  [{ name := "A", arguments := [], id := "idA" },
   { name := "B", arguments := [], id := "idB" }]

/-- A text-only model; its completion schedule is empty, which is valid
because no turn carries tool calls. -/
def c4env : ModelEnv :=
  { respond := fun _ _ => .ok [ContentBlock.textBlock "x"],
    sched := fun _ => [] }

/- C5 gadget. -/

/-- A gateway whose every attempt raises `Exception("boom")`. -/
def c5envFail : ModelEnv :=
  { respond := fun _ _ => .error "boom", sched := fun _ => [] }

/- C6 gadgets. -/

/-- A model that emits text `"a"` plus one tool call, then text `"b"` plus
one tool call, then text `"c"` alone. -/
def c6env : ModelEnv :=
  { respond := fun msgs _ =>
      if msgs.length ≤ 1 then
        .ok [ContentBlock.textBlock "a", ContentBlock.toolUseBlock "i1" "t" []]
      else if msgs.length ≤ 3 then
        .ok [ContentBlock.textBlock "b", ContentBlock.toolUseBlock "i2" "t" []]
      else .ok [ContentBlock.textBlock "c"],
    sched := fun _ => [0] }

/-- The transcript `ai` leaves behind against `c6env`: the second assistant
turn's text is the accumulated `"ab"`, not this iteration's `"b"`. -/
def c6transcript : List Message :=
  [userMsg "q",
   { role := "assistant", content :=
      [MContent.text "a", MContent.tool_use "i1" "t" []] },
   resMsg "i1",
   { role := "assistant", content :=
      [MContent.text "ab", MContent.tool_use "i2" "t" []] },
   resMsg "i2"]

/- C7 gadget. -/

/-- The two entries of the spec's example: the source reads the tool name
from the `recipient_name` key (the spec calls it `toolName`). -/
def c7uses : List ToolUse :=
  [{ recipient_name := "A", parameters := [] },
   { recipient_name := "B", parameters := [] }]

/- C9 gadgets. -/

def c9h1 : Handler := fun _ => .ok (.pstr "one")

def c9h2 : Handler := fun _ => .ok (.pstr "two")

/-- Registry state after registering the first handler under name `t`. -/
def c9state1 : RegState :=
  functionWrapperInit { tools := [], callable_registry := [] } "t" c9h1
    { name := "t", description := "first" }

/-- Registry state after registering a second, different handler under the
same name `t`. -/
def c9state2 : RegState :=
  functionWrapperInit c9state1 "t" c9h2
    { name := "t", description := "second" }

/- C10 gadget. -/

/-- A model that immediately answers with text `"hi"`. -/
def c10env : ModelEnv :=
  { respond := fun _ _ => .ok [ContentBlock.textBlock "hi"],
    sched := fun _ => [] }

/-! ### Theorems -/

theorem completionResults_cons {α β : Type} (exec : α → β) (calls : List α)
    (j : Nat) (rest : List Nat) :
    completionResults exec calls (j :: rest)
      = (match calls[j]? with
         | some c => (j, exec c) :: completionResults exec calls rest
         | none => completionResults exec calls rest) := by
  simp only [completionResults, List.filterMap_cons]
  cases calls[j]? <;> simp

theorem lookup_completionResults_none {α β : Type} (exec : α → β)
    (calls : List α) (i : Nat) (hc : calls[i]? = none) (sched : List Nat) :
    List.lookup i (completionResults exec calls sched) = none := by
  induction sched with
  | nil => rfl
  | cons j rest ih =>
    rw [completionResults_cons]
    cases hj : calls[j]? with
    | none => exact ih
    | some c =>
      have hij : i ≠ j := fun h => by rw [h, hj] at hc; cases hc
      simp only [List.lookup]
      rw [show (i == j) = false from beq_eq_false_iff_ne.mpr hij]
      exact ih

theorem lookup_completionResults {α β : Type} (exec : α → β) (calls : List α)
    (sched : List Nat) (i : Nat) (hmem : i ∈ sched) :
    List.lookup i (completionResults exec calls sched)
      = (calls[i]?).map exec := by
  induction sched with
  | nil => cases hmem
  | cons j rest ih =>
    rw [completionResults_cons]
    by_cases hij : i = j
    · subst hij
      cases hc : calls[i]? with
      | none => simp [lookup_completionResults_none exec calls i hc rest]
      | some c => simp [List.lookup]
    · have hmem' : i ∈ rest := by
        cases List.mem_cons.mp hmem with
        | inl h => exact absurd h hij
        | inr h => exact h
      cases hc : calls[j]? with
      | none => exact ih hmem'
      | some c =>
        simp only [List.lookup]
        rw [show (i == j) = false from beq_eq_false_iff_ne.mpr hij]
        exact ih hmem'

theorem range_filterMap_getElem {α β : Type} (exec : α → β) (calls : List α) :
    ((List.range calls.length).filterMap fun i => (calls[i]?).map exec)
      = calls.map exec := by
  induction calls with
  | nil => simp
  | cons a l ih =>
    rw [List.length_cons, List.range_succ_eq_map]
    simp only [List.filterMap_cons, List.getElem?_cons_zero, Option.map_some,
      List.filterMap_map, List.map_cons]
    have hfun : ((fun i => ((a :: l)[i]?).map exec) ∘ Nat.succ)
        = fun i => (l[i]?).map exec := by
      funext i
      simp
    rw [hfun, ih]
    simp

/-- `asyncio.gather` returns results in task-submission order: as long as
every task index appears in the completion schedule, the gathered list is
just the in-order map of the task bodies. -/
theorem gatherResults_eq_map {α β : Type} (exec : α → β) (calls : List α)
    (sched : List Nat) (hvalid : ∀ i, i < calls.length → i ∈ sched) :
    gatherResults exec calls sched = calls.map exec := by
  unfold gatherResults
  rw [← range_filterMap_getElem exec calls]
  apply List.filterMap_congr
  intro i hi
  have hilt : i < calls.length := List.mem_range.mp hi
  exact lookup_completionResults exec calls sched i (hvalid i hilt)

/-- Every element of `toolResultMessages` is a `user`-role message holding
a `tool_result` block. -/
theorem mem_toolResultMessages (fcs : List FunctionCall)
    (rs : List (String × String)) (m : Message)
    (hm : m ∈ toolResultMessages fcs rs) :
    m.role = "user" ∧ isToolResultMessage m = true := by
  unfold toolResultMessages at hm
  obtain ⟨p, _, rfl⟩ := List.mem_map.mp hm
  constructor
  · rfl
  · rfl

theorem isToolResultMessage_assistant (content : List MContent)
    (hc : ∀ c ∈ content, ∀ id r, c ≠ MContent.tool_result id r) :
    isToolResultMessage { role := "assistant", content := content } = false := by
  unfold isToolResultMessage
  rw [List.any_eq_false]
  intro c hmem
  cases c with
  | text t => simp
  | tool_use a b d => simp
  | tool_result id r => exact absurd rfl (hc _ hmem id r)

theorem assistantContent_no_tool_result (tc : String)
    (fcs : List FunctionCall) (c : MContent) (hc : c ∈ assistantContent tc fcs) :
    ∀ id r, c ≠ MContent.tool_result id r := by
  intro id r
  unfold assistantContent at hc
  rcases List.mem_append.mp hc with h | h
  · by_cases ht : pyStrip tc ≠ ""
    · rw [if_pos ht] at h
      rcases List.mem_singleton.mp h with rfl
      intro hcon
      cases hcon
    · rw [if_neg ht] at h
      cases h
  · obtain ⟨fc, _, rfl⟩ := List.mem_map.mp h
    intro hcon
    cases hcon

theorem toolResultCount_append (a b : List Message) :
    toolResultCount (a ++ b) = toolResultCount a + toolResultCount b := by
  unfold toolResultCount
  rw [List.filter_append, List.length_append]

theorem toolResultCount_toolResultMessages (fcs : List FunctionCall)
    (rs : List (String × String)) :
    toolResultCount (toolResultMessages fcs rs) = (fcs.zip rs).length := by
  unfold toolResultCount toolResultMessages
  rw [List.filter_eq_self.mpr, List.length_map]
  intro m hm
  obtain ⟨p, _, rfl⟩ := List.mem_map.mp hm
  rfl

theorem toolResultCount_assistantMessage (tc : String) (fcs : List FunctionCall) :
    toolResultCount [{ role := "assistant", content := assistantContent tc fcs }] = 0 := by
  unfold toolResultCount
  rw [List.filter_cons_of_neg, List.filter_nil, List.length_nil]
  rw [isToolResultMessage_assistant]
  · simp
  · exact fun c hc => assistantContent_no_tool_result tc fcs c hc

/-! ### Branch equations for one unfolding of the loop -/

theorem aiLoop_budget_error (env : ModelEnv) (reg : CallableRegistry)
    (mx : Nat) (msgs : List Message) (tc : String) (count : Nat) (e : String)
    (h : count < mx)
    (heq : anthropic_chat_completion_request env msgs = .error e) :
    aiLoop env reg mx msgs tc count = .error e := by
  rw [aiLoop.eq_def, dif_pos h, heq]

theorem aiLoop_no_calls (env : ModelEnv) (reg : CallableRegistry)
    (mx : Nat) (msgs : List Message) (tc : String) (count : Nat)
    (content : List ContentBlock) (h : count < mx)
    (heq : anthropic_chat_completion_request env msgs = .ok content)
    (hfc : (collectCalls content).isEmpty = true) :
    aiLoop env reg mx msgs tc count
      = .ok (msgs, .success (pyStrip (tc ++ collectText content))) := by
  rw [aiLoop.eq_def, dif_pos h, heq]
  simp only [dif_pos hfc]

theorem aiLoop_step (env : ModelEnv) (reg : CallableRegistry)
    (mx : Nat) (msgs : List Message) (tc : String) (count : Nat)
    (content : List ContentBlock) (h : count < mx)
    (heq : anthropic_chat_completion_request env msgs = .ok content)
    (hfc : ¬(collectCalls content).isEmpty = true) :
    aiLoop env reg mx msgs tc count
      = aiLoop env reg mx (stepMessages env reg msgs tc content)
          (tc ++ collectText content)
          (count + (collectCalls content).length) := by
  rw [aiLoop.eq_def, dif_pos h, heq]
  simp only [dif_neg hfc]
  rfl

theorem aiLoop_final_error (env : ModelEnv) (reg : CallableRegistry)
    (mx : Nat) (msgs : List Message) (tc : String) (count : Nat) (e : String)
    (h : ¬count < mx)
    (heq : anthropic_chat_completion_request env msgs = .error e) :
    aiLoop env reg mx msgs tc count = .error e := by
  rw [aiLoop.eq_def, dif_neg h, heq]

theorem aiLoop_final_empty (env : ModelEnv) (reg : CallableRegistry)
    (mx : Nat) (msgs : List Message) (tc : String) (count : Nat)
    (content : List ContentBlock) (h : ¬count < mx)
    (heq : anthropic_chat_completion_request env msgs = .ok content)
    (hte : collectText content = "") :
    aiLoop env reg mx msgs tc count
      = .ok (msgs, .failure "No text content in Anthropic final response") := by
  rw [aiLoop.eq_def, dif_neg h, heq]
  simp only [if_pos hte]

theorem aiLoop_final_text (env : ModelEnv) (reg : CallableRegistry)
    (mx : Nat) (msgs : List Message) (tc : String) (count : Nat)
    (content : List ContentBlock) (h : ¬count < mx)
    (heq : anthropic_chat_completion_request env msgs = .ok content)
    (hte : ¬collectText content = "") :
    aiLoop env reg mx msgs tc count
      = .ok (msgs, .success (pyStrip (collectText content))) := by
  rw [aiLoop.eq_def, dif_neg h, heq]
  simp only [if_neg hte]

/-- After a normal return of the loop, the final `messages` list is the
input list with a trail of appended turns, each of which is either an
assistant turn or a tool-result turn (a `user`-role message holding a
`tool_result` block). -/
theorem aiLoop_ok_extends (env : ModelEnv) (reg : CallableRegistry) (mx : Nat) :
    ∀ msgs tc count ms out,
      aiLoop env reg mx msgs tc count = .ok (ms, out) →
      ∃ delta, ms = msgs ++ delta ∧
        ∀ m ∈ delta, m.role = "assistant" ∨
          (m.role = "user" ∧ isToolResultMessage m = true) := by
  intro msgs tc count
  induction msgs, tc, count using aiLoop.induct env reg mx with
  | case1 msgs tc count h e heq =>
    intro ms out hrun
    rw [aiLoop_budget_error env reg mx msgs tc count e h heq] at hrun
    cases hrun
  | case2 msgs tc count h content heq fcs hfc =>
    intro ms out hrun
    rw [aiLoop_no_calls env reg mx msgs tc count content h heq hfc] at hrun
    cases hrun
    exact ⟨[], by simp, by simp⟩
  | case3 msgs tc count h content heq tc2 fcs hfc frs nmc msgs2 msgs3 ih =>
    intro ms out hrun
    rw [aiLoop_step env reg mx msgs tc count content h heq hfc] at hrun
    obtain ⟨delta, hms0, hdelta⟩ := ih ms out hrun
    have hms : ms = stepMessages env reg msgs tc content ++ delta := hms0
    unfold stepMessages at hms
    by_cases hnmc :
        (!(assistantContent (tc ++ collectText content)
            (collectCalls content)).isEmpty) = true
    · rw [if_pos hnmc] at hms
      refine ⟨(⟨"assistant", assistantContent (tc ++ collectText content)
            (collectCalls content)⟩ : Message) ::
          (toolResultMessages (collectCalls content)
            (functionResults reg (collectCalls content) (env.sched msgs))
            ++ delta), by rw [hms]; simp, ?_⟩
      intro m hm
      rcases List.mem_cons.mp hm with rfl | hm1
      · left
        rfl
      rcases List.mem_append.mp hm1 with hm2 | hm3
      · right
        exact mem_toolResultMessages _ _ m hm2
      · exact hdelta m hm3
    · rw [if_neg hnmc] at hms
      refine ⟨toolResultMessages (collectCalls content)
          (functionResults reg (collectCalls content) (env.sched msgs))
          ++ delta, by rw [hms]; simp, ?_⟩
      intro m hm
      rcases List.mem_append.mp hm with hm1 | hm2
      · right
        exact mem_toolResultMessages _ _ m hm1
      · exact hdelta m hm2
  | case4 msgs tc count h e heq =>
    intro ms out hrun
    rw [aiLoop_final_error env reg mx msgs tc count e h heq] at hrun
    cases hrun
  | case5 msgs tc count h content heq ftc hte =>
    intro ms out hrun
    rw [aiLoop_final_empty env reg mx msgs tc count content h heq hte] at hrun
    cases hrun
    exact ⟨[], by simp, by simp⟩
  | case6 msgs tc count h content heq ftc hte =>
    intro ms out hrun
    rw [aiLoop_final_text env reg mx msgs tc count content h heq hte] at hrun
    cases hrun
    exact ⟨[], by simp, by simp⟩

/-- If every gateway call succeeds, the loop always returns a value — no
exception escapes, whatever the registry's handlers do (including raising):
tool failures are converted to payloads, never control flow. -/
theorem aiLoop_total (env : ModelEnv) (reg : CallableRegistry) (mx : Nat)
    (hgw : ∀ msgs, ∃ r, anthropic_chat_completion_request env msgs = .ok r) :
    ∀ msgs tc count, ∃ p, aiLoop env reg mx msgs tc count = .ok p := by
  intro msgs tc count
  induction msgs, tc, count using aiLoop.induct env reg mx with
  | case1 msgs tc count h e heq =>
    obtain ⟨r, hr⟩ := hgw msgs
    rw [heq] at hr
    cases hr
  | case2 msgs tc count h content heq fcs hfc =>
    exact ⟨_, aiLoop_no_calls env reg mx msgs tc count content h heq hfc⟩
  | case3 msgs tc count h content heq tc2 fcs hfc frs nmc msgs2 msgs3 ih =>
    obtain ⟨p, hp⟩ := ih
    exact ⟨p, by rw [aiLoop_step env reg mx msgs tc count content h heq hfc]; exact hp⟩
  | case4 msgs tc count h e heq =>
    obtain ⟨r, hr⟩ := hgw msgs
    rw [heq] at hr
    cases hr
  | case5 msgs tc count h content heq ftc hte =>
    exact ⟨_, aiLoop_final_empty env reg mx msgs tc count content h heq hte⟩
  | case6 msgs tc count h content heq ftc hte =>
    exact ⟨_, aiLoop_final_text env reg mx msgs tc count content h heq hte⟩

theorem toolResultCount_stepMessages_le (env : ModelEnv)
    (reg : CallableRegistry) (msgs : List Message) (tc : String)
    (content : List ContentBlock) :
    toolResultCount (stepMessages env reg msgs tc content)
      ≤ toolResultCount msgs + (collectCalls content).length := by
  unfold stepMessages
  rw [toolResultCount_append]
  have h2 : toolResultCount (toolResultMessages (collectCalls content)
      (functionResults reg (collectCalls content) (env.sched msgs)))
      ≤ (collectCalls content).length := by
    rw [toolResultCount_toolResultMessages, List.length_zip]
    exact Nat.min_le_left _ _
  have h1 : toolResultCount
      (if (!(assistantContent (tc ++ collectText content)
          (collectCalls content)).isEmpty) = true then
        msgs ++ [{ role := "assistant",
                   content := assistantContent (tc ++ collectText content)
                     (collectCalls content) }]
      else msgs) = toolResultCount msgs := by
    split
    · rw [toolResultCount_append, toolResultCount_assistantMessage]
      omega
    · rfl
  rw [h1]
  omega

theorem toolResultMessages_map (reg : CallableRegistry)
    (fcs : List FunctionCall) :
    toolResultMessages fcs (fcs.map (execute_function reg))
      = fcs.map fun fc =>
          { role := "user",
            content := [MContent.tool_result fc.id
              (execute_function_by_name reg fc.name fc.arguments)] } := by
  induction fcs with
  | nil => rfl
  | cons fc rest ih =>
    simp only [toolResultMessages, List.map_cons, List.zip_cons_cons] at *
    rw [ih]
    rfl

/-- The loop's budget invariant: entering with `count` calls already
issued, a normal return appends at most `(mx - 1 - count) + k` further
tool-result turns, where `k` bounds the tool calls any single model
response carries.  (When the budget is already exhausted, nothing is
appended.) -/
theorem aiLoop_toolResultCount_le (env : ModelEnv) (reg : CallableRegistry)
    (mx k : Nat)
    (hk : ∀ msgs r, anthropic_chat_completion_request env msgs = .ok r →
      (collectCalls r).length ≤ k) :
    ∀ msgs tc count ms out,
      aiLoop env reg mx msgs tc count = .ok (ms, out) →
      toolResultCount ms
        ≤ toolResultCount msgs + (mx - 1 - count)
            + (if count < mx then k else 0) := by
  intro msgs tc count
  induction msgs, tc, count using aiLoop.induct env reg mx with
  | case1 msgs tc count h e heq =>
    intro ms out hrun
    rw [aiLoop_budget_error env reg mx msgs tc count e h heq] at hrun
    cases hrun
  | case2 msgs tc count h content heq fcs hfc =>
    intro ms out hrun
    rw [aiLoop_no_calls env reg mx msgs tc count content h heq hfc] at hrun
    cases hrun
    split <;> omega
  | case3 msgs tc count h content heq tc2 fcs hfc frs nmc msgs2 msgs3 ih =>
    intro ms out hrun
    rw [aiLoop_step env reg mx msgs tc count content h heq hfc] at hrun
    have hb : toolResultCount ms
        ≤ toolResultCount (stepMessages env reg msgs tc content)
          + (mx - 1 - (count + (collectCalls content).length))
          + (if count + (collectCalls content).length < mx then k else 0) :=
      ih ms out hrun
    have hstep := toolResultCount_stepMessages_le env reg msgs tc content
    have hkk := hk msgs content heq
    rw [if_pos h]
    by_cases hc2 : count + (collectCalls content).length < mx
    · rw [if_pos hc2] at hb
      omega
    · rw [if_neg hc2] at hb
      omega
  | case4 msgs tc count h e heq =>
    intro ms out hrun
    rw [aiLoop_final_error env reg mx msgs tc count e h heq] at hrun
    cases hrun
  | case5 msgs tc count h content heq ftc hte =>
    intro ms out hrun
    rw [aiLoop_final_empty env reg mx msgs tc count content h heq hte] at hrun
    cases hrun
    split <;> omega
  | case6 msgs tc count h content heq ftc hte =>
    intro ms out hrun
    rw [aiLoop_final_text env reg mx msgs tc count content h heq hte] at hrun
    cases hrun
    split <;> omega

/-! ### Completion-order irrelevance -/

theorem accr_congr (env env' : ModelEnv) (hresp : env.respond = env'.respond)
    (msgs : List Message) :
    anthropic_chat_completion_request env msgs
      = anthropic_chat_completion_request env' msgs := by
  unfold anthropic_chat_completion_request
  rw [hresp]

theorem functionResults_valid (reg : CallableRegistry)
    (fcs : List FunctionCall) (sched : List Nat)
    (hvalid : ∀ i, i < fcs.length → i ∈ sched) :
    functionResults reg fcs sched = fcs.map (execute_function reg) :=
  gatherResults_eq_map _ _ _ hvalid

/-- The tool-result turns appended after one model turn are the calls of
that turn mapped in their original request order, whatever the completion
order was. -/
theorem toolResultMessages_inorder (reg : CallableRegistry)
    (fcs : List FunctionCall) (sched : List Nat)
    (hvalid : ∀ i, i < fcs.length → i ∈ sched) :
    toolResultMessages fcs (functionResults reg fcs sched)
      = fcs.map fun fc =>
          { role := "user",
            content := [MContent.tool_result fc.id
              (execute_function_by_name reg fc.name fc.arguments)] } := by
  rw [functionResults_valid reg fcs sched hvalid, toolResultMessages_map]

theorem stepMessages_congr (env env' : ModelEnv) (reg : CallableRegistry)
    (msgs : List Message) (tc : String) (content : List ContentBlock)
    (hv : ∀ i, i < (collectCalls content).length → i ∈ env.sched msgs)
    (hv' : ∀ i, i < (collectCalls content).length → i ∈ env'.sched msgs) :
    stepMessages env reg msgs tc content
      = stepMessages env' reg msgs tc content := by
  unfold stepMessages
  rw [functionResults_valid reg _ _ hv, functionResults_valid reg _ _ hv']

/-- Two environments with the same responder and any two well-formed
completion schedules drive the loop to the same result: tool-completion
order is unobservable. -/
theorem aiLoop_sched_congr (env env' : ModelEnv) (reg : CallableRegistry)
    (mx : Nat) (hresp : env.respond = env'.respond)
    (hv : schedValid env) (hv' : schedValid env') :
    ∀ msgs tc count,
      aiLoop env reg mx msgs tc count = aiLoop env' reg mx msgs tc count := by
  intro msgs tc count
  induction msgs, tc, count using aiLoop.induct env reg mx with
  | case1 msgs tc count h e heq =>
    rw [aiLoop_budget_error env reg mx msgs tc count e h heq,
        aiLoop_budget_error env' reg mx msgs tc count e h
          (by rw [← accr_congr env env' hresp]; exact heq)]
  | case2 msgs tc count h content heq fcs hfc =>
    rw [aiLoop_no_calls env reg mx msgs tc count content h heq hfc,
        aiLoop_no_calls env' reg mx msgs tc count content h
          (by rw [← accr_congr env env' hresp]; exact heq) hfc]
  | case3 msgs tc count h content heq tc2 fcs hfc frs nmc msgs2 msgs3 ih =>
    have heq' : anthropic_chat_completion_request env' msgs = .ok content := by
      rw [← accr_congr env env' hresp]
      exact heq
    rw [aiLoop_step env reg mx msgs tc count content h heq hfc,
        aiLoop_step env' reg mx msgs tc count content h heq' hfc,
        ← stepMessages_congr env env' reg msgs tc content
          (hv msgs content heq) (hv' msgs content heq')]
    exact ih
  | case4 msgs tc count h e heq =>
    rw [aiLoop_final_error env reg mx msgs tc count e h heq,
        aiLoop_final_error env' reg mx msgs tc count e h
          (by rw [← accr_congr env env' hresp]; exact heq)]
  | case5 msgs tc count h content heq ftc hte =>
    rw [aiLoop_final_empty env reg mx msgs tc count content h heq hte,
        aiLoop_final_empty env' reg mx msgs tc count content h
          (by rw [← accr_congr env env' hresp]; exact heq) hte]
  | case6 msgs tc count h content heq ftc hte =>
    rw [aiLoop_final_text env reg mx msgs tc count content h heq hte,
        aiLoop_final_text env' reg mx msgs tc count content h
          (by rw [← accr_congr env env' hresp]; exact heq) hte]

/-! ### Registration and payload lemmas -/

theorem lookup_dictInsert (m : CallableRegistry) (k : String) (v : Handler)
    (hpres : m.any (fun p => p.1 == k) = true) :
    List.lookup k (dictInsert m k v) = some v := by
  unfold dictInsert
  rw [if_pos hpres]
  induction m with
  | nil => cases hpres
  | cons a rest ih =>
    simp only [List.map_cons]
    cases hak : (a.1 == k) with
    | true =>
      simp only [hak, if_true]
      simp [List.lookup]
    | false =>
      simp only [hak, Bool.false_eq_true, if_false]
      have hka : (k == a.1) = false :=
        beq_eq_false_iff_ne.mpr (Ne.symm (beq_eq_false_iff_ne.mp hak))
      simp only [List.lookup, hka]
      apply ih
      rw [List.any_cons, hak] at hpres
      simpa using hpres

theorem dictInsert_length_of_present (m : CallableRegistry) (k : String)
    (v : Handler) (hpres : m.any (fun p => p.1 == k) = true) :
    (dictInsert m k v).length = m.length := by
  unfold dictInsert
  rw [if_pos hpres, List.length_map]

theorem execute_function_by_name_throw (reg : CallableRegistry)
    (name : String) (h : Handler) (kwargs : List (String × JValue))
    (msg : String) (hl : List.lookup name reg = some h)
    (ht : h kwargs = .error msg) :
    execute_function_by_name reg name kwargs
      = jdump (.jobj [("error", .jstr msg)]) := by
  unfold execute_function_by_name
  rw [hl]
  simp only [ht]

theorem execute_function_by_name_missing (reg : CallableRegistry)
    (name : String) (kwargs : List (String × JValue))
    (hl : List.lookup name reg = none) :
    execute_function_by_name reg name kwargs
      = jdump (.jobj [("error",
          .jstr ("Function " ++ name ++ " not found in registry"))]) := by
  unfold execute_function_by_name
  rw [hl]

theorem jdump_error_obj (msg : String) :
    jdump (.jobj [("error", .jstr msg)])
      = "\x7b" ++ ("\"" ++ jsonEscape "error" ++ "\": "
          ++ ("\"" ++ jsonEscape msg ++ "\"")) ++ "\x7d" := by
  simp [jdump, jdumpFields]

theorem string_sandwich (a b q m w z : String) :
    (a ++ (b ++ ((q ++ m) ++ w))) ++ z = (a ++ (b ++ q)) ++ m ++ (w ++ z) := by
  apply String.ext
  simp [String.data_append, List.append_assoc]

/-- The serialized error payload contains the raw exception message
whenever the message needs no JSON escaping. -/
theorem jdump_error_contains (msg : String) (hesc : jsonEscape msg = msg) :
    ∃ pre post, jdump (.jobj [("error", .jstr msg)])
      = pre ++ msg ++ post := by
  refine ⟨"\x7b" ++ (("\"" ++ jsonEscape "error" ++ "\": ") ++ "\""),
    "\"" ++ "\x7d", ?_⟩
  rw [jdump_error_obj, hesc]
  exact string_sandwich "\x7b" ("\"" ++ jsonEscape "error" ++ "\": ")
    "\"" msg "\"" "\x7d"

/-! ### Claim theorems -/

/-- C7 (code bug): invoking `multi_tool_use_parallel` on the two-entry
list `[{toolName:"A",parameters:{}},{toolName:"B",parameters:{}}]` never
returns the claimed 2-element ordered result list.  The body's free name
`execute_function_by_name` is unbound in function_wrapper.py (defined only
in aifunc.py and never imported or injected), so every entry's
`execute_tool` raises `NameError` and `asyncio.gather` propagates it —
under either completion order, whether B resolves first (`[1, 0]`) or A
does (`[0, 1]`).  Only the degenerate empty call list returns at all. -/
theorem c7_parallel_order :
    multi_tool_use_parallel [1, 0] c7uses = .error nameErrorUnboundInvoker
    ∧ multi_tool_use_parallel [0, 1] c7uses = .error nameErrorUnboundInvoker
    ∧ multi_tool_use_parallel [] [] = .ok [] :=
  ⟨rfl, rfl, rfl⟩

/-- C8 counterexample: for the absent name `foo`, the invocation returns
the payload `{"error": "Function foo not found in registry"}` — not the
claimed `{"error": "foo not found in registry"}` (the code's message
carries the `Function ` prefix). -/
theorem c8_not_found_counterexample :
    execute_function_by_name [] "foo" []
        = "\x7b\"error\": \"Function foo not found in registry\"\x7d"
    ∧ execute_function_by_name [] "foo" []
        ≠ "\x7b\"error\": \"foo not found in registry\"\x7d" :=
  ⟨rfl, by decide⟩

/-- C8 amended: for every tool name absent from the registry, invocation
returns the serialized error payload
`{error: "Function <name> not found in registry"}` to its caller instead of
failing the caller (the function is total: it returns this string). -/
theorem c8_not_found_amended (reg : CallableRegistry) (name : String)
    (kwargs : List (String × JValue))
    (hl : List.lookup name reg = none) :
    execute_function_by_name reg name kwargs
      = jdump (.jobj [("error",
          .jstr ("Function " ++ name ++ " not found in registry"))]) :=
  execute_function_by_name_missing reg name kwargs hl

/-- C8 amended, witness at the empty registry and name `foo`. -/
theorem c8_not_found_amended_witness :
    execute_function_by_name [] "foo" []
      = jdump (.jobj [("error",
          .jstr ("Function " ++ "foo" ++ " not found in registry"))]) :=
  c8_not_found_amended [] "foo" [] rfl

/-- C9 counterexample: registering a second handler under the
already-present name `t` does not fail — `FunctionWrapper.__init__` has no
duplicate check and no `RegistrationError` exists anywhere in the code.
The dict assignment silently replaces the callable (invoking `t` now
returns the second handler's value) and a second descriptor is appended to
`tools`. -/
theorem c9_duplicate_counterexample :
    execute_function_by_name c9state1.callable_registry "t" [] = "one"
    ∧ execute_function_by_name c9state2.callable_registry "t" [] = "two"
    ∧ c9state2.tools.length = 2 :=
  ⟨rfl, rfl, rfl⟩

/-- C9 amended: registering a handler whose name is already present always
succeeds silently: the registry entry is overwritten in place with the new
handler (the registry does not grow), and the descriptor list gains one
more entry.  No error of any kind is raised (registration is a total
function). -/
theorem c9_duplicate_amended (st : RegState) (name : String) (g : Handler)
    (info : FunctionInfo)
    (hpres : st.callable_registry.any (fun p => p.1 == name) = true) :
    List.lookup name (functionWrapperInit st name g info).callable_registry
        = some g
    ∧ (functionWrapperInit st name g info).tools.length
        = st.tools.length + 1
    ∧ (functionWrapperInit st name g info).callable_registry.length
        = st.callable_registry.length := by
  refine ⟨lookup_dictInsert _ _ _ hpres, ?_, ?_⟩
  · unfold functionWrapperInit
    simp
  · exact dictInsert_length_of_present _ _ _ hpres

/-- C9 amended, witness: the duplicate registration of `t` on top of
`c9state1`. -/
theorem c9_duplicate_amended_witness :
    List.lookup "t"
        (functionWrapperInit c9state1 "t" c9h2
          { name := "t", description := "second" }).callable_registry
        = some c9h2
    ∧ (functionWrapperInit c9state1 "t" c9h2
          { name := "t", description := "second" }).tools.length
        = c9state1.tools.length + 1
    ∧ (functionWrapperInit c9state1 "t" c9h2
          { name := "t", description := "second" }).callable_registry.length
        = c9state1.callable_registry.length :=
  c9_duplicate_amended c9state1 "t" c9h2
    { name := "t", description := "second" } rfl

/-- C2: tool invocation never raises.  When the registry resolves `name` to
a handler that raises with message `msg`, `execute_function_by_name`
returns the serialized payload `json.dumps({"error": msg})`; that payload
contains the exception message verbatim (whenever the message needs no
JSON escaping); and the orchestration loop continues: with any registry
whatsoever — including one whose handlers all raise — `ai` returns a value
whenever the gateway does (no tool failure ever escapes as an
exception). -/
theorem c2_invoke_never_raises (reg : CallableRegistry) (env : ModelEnv)
    (name : String) (h : Handler) (kwargs : List (String × JValue))
    (msg : String) (username query anthropic_token : String)
    (history : Option (List Message))
    (hl : List.lookup name reg = some h) (ht : h kwargs = .error msg)
    (hesc : jsonEscape msg = msg) (htok : anthropic_token ≠ "")
    (hgw : ∀ msgs, ∃ r, anthropic_chat_completion_request env msgs = .ok r) :
    execute_function_by_name reg name kwargs
        = jdump (.jobj [("error", .jstr msg)])
    ∧ (∃ pre post,
        execute_function_by_name reg name kwargs = pre ++ msg ++ post)
    ∧ ∃ p, ai env reg username query anthropic_token history = .ok p := by
  refine ⟨execute_function_by_name_throw reg name h kwargs msg hl ht, ?_, ?_⟩
  · rw [execute_function_by_name_throw reg name h kwargs msg hl ht]
    exact jdump_error_contains msg hesc
  · unfold ai
    rw [if_neg htok]
    exact aiLoop_total env reg 6 hgw _ "" 0

/-- C2 witness: the always-raising handler `throwHandler` under name `t`,
with a text-answering gateway. -/
theorem c2_invoke_never_raises_witness :
    execute_function_by_name c2reg "t" []
        = jdump (.jobj [("error", .jstr "boom")])
    ∧ (∃ pre post, execute_function_by_name c2reg "t" [] = pre ++ "boom" ++ post)
    ∧ ∃ p, ai c2env c2reg "anonymous" "help" "tok" (some []) = .ok p :=
  c2_invoke_never_raises c2reg c2env "t" throwHandler [] "boom"
    "anonymous" "help" "tok" (some []) rfl rfl rfl (by decide)
    (fun msgs => ⟨[ContentBlock.textBlock "hi"], rfl⟩)

/-- C4: fan-out/fan-in ordering invariant.  For every list of tool calls
requested in one model turn and every completion order that runs each
task, the tool-result turns appended to the transcript appear in the same
order as the originating requests; consequently two runs of `ai` that
differ only in their completion schedules produce identical results. -/
theorem c4_fan_in_order (env env' : ModelEnv) (reg : CallableRegistry)
    (username query anthropic_token : String) (history : Option (List Message))
    (fcs : List FunctionCall) (sched : List Nat)
    (hvalid : ∀ i, i < fcs.length → i ∈ sched)
    (hresp : env.respond = env'.respond)
    (hv : schedValid env) (hv' : schedValid env') :
    toolResultMessages fcs (functionResults reg fcs sched)
      = (fcs.map fun fc =>
          { role := "user",
            content := [MContent.tool_result fc.id
              (execute_function_by_name reg fc.name fc.arguments)] })
    ∧ ai env reg username query anthropic_token history
        = ai env' reg username query anthropic_token history := by
  constructor
  · exact toolResultMessages_inorder reg fcs sched hvalid
  · unfold ai
    split
    · rfl
    · exact aiLoop_sched_congr env env' reg 6 hresp hv hv' _ "" 0

/-- C4 witness: calls `A`, `B` under the reversed completion schedule
`[1, 0]` (B resolves first), against the text-only gateway `c4env`. -/
theorem c4_fan_in_order_witness :
    toolResultMessages c4calls (functionResults c4reg c4calls [1, 0])
      = (c4calls.map fun fc =>
          { role := "user",
            content := [MContent.tool_result fc.id
              (execute_function_by_name c4reg fc.name fc.arguments)] })
    ∧ ai c4env c4reg "anonymous" "help" "tok" (some [userMsg "q"])
        = ai c4env c4reg "anonymous" "help" "tok" (some [userMsg "q"]) := by
  have hval : schedValid c4env := by
    intro msgs r h i hi
    have hr : r = [ContentBlock.textBlock "x"] := by
      have h' : Except.ok (ε := String) [ContentBlock.textBlock "x"] = .ok r := h
      cases h'
      rfl
    rw [hr] at hi
    simp [collectCalls] at hi
  exact c4_fan_in_order c4env c4env c4reg "anonymous" "help" "tok"
    (some [userMsg "q"]) c4calls [1, 0] (by decide) rfl hval hval

/-- C10: `ai` appends the assistant and tool-result turns for the query to
the caller-supplied history: whenever `ai` returns normally, the final
`messages` list (which in the source is the very same list object the
caller passed, mutated in place by `messages.append`) is the caller's
history extended by a trail of turns, each an assistant turn or a
tool-result turn. -/
theorem c10_history_appended (env : ModelEnv) (reg : CallableRegistry)
    (username query anthropic_token : String) (history : List Message)
    (ms : List Message) (out : AiOutcome)
    (hrun : ai env reg username query anthropic_token (some history)
      = .ok (ms, out)) :
    ∃ delta, ms = history ++ delta ∧
      ∀ m ∈ delta, m.role = "assistant" ∨
        (m.role = "user" ∧ isToolResultMessage m = true) := by
  unfold ai at hrun
  by_cases htok : anthropic_token = ""
  · rw [if_pos htok] at hrun
    cases hrun
  · rw [if_neg htok] at hrun
    exact aiLoop_ok_extends env reg 6 history "" 0 ms out hrun

/-- C10 witness: a run against the text-answering gateway `c10env`. -/
theorem c10_history_appended_witness :
    ∃ delta, [userMsg "q"] = [userMsg "q"] ++ delta ∧
      ∀ m ∈ delta, m.role = "assistant" ∨
        (m.role = "user" ∧ isToolResultMessage m = true) :=
  c10_history_appended c10env [] "anonymous" "help" "tok" [userMsg "q"]
    [userMsg "q"] (.success "hi")
    (by
      unfold ai
      rw [if_neg (by decide)]
      show aiLoop c10env [] 6 [userMsg "q"] "" 0 = _
      rw [aiLoop_no_calls c10env [] 6 [userMsg "q"] "" 0
          [ContentBlock.textBlock "hi"] (by decide) rfl rfl]
      rfl)

/-- C5 counterexample: when every gateway attempt fails, the exhausted
retry escapes `ai` as a raised exception (`.error`), not as an explicit
`(False, {"error": ...})` failure result — there is no `try/except` around
the `anthropic_chat_completion_request` call inside `ai`. -/
theorem c5_gateway_counterexample :
    ai c5envFail [] "anonymous" "help" "tok" (some [userMsg "q"])
      = .error "boom" := by
  unfold ai
  rw [if_neg (by decide)]
  exact aiLoop_budget_error c5envFail [] 6 [userMsg "q"] "" 0 "boom"
    (by decide) rfl

/-- C5 amended: the gateway makes up to 3 attempts total (attempts 0, 1, 2
of the environment): if the first two raise and the third succeeds, the
call succeeds; if all three raise, the call raises, the failure escapes
`ai` as a raised exception (not as a failure result), and it is the shell
wrapper `process_shell_query` — the caller of `ai` — that catches it and
converts it into the explicit failure result
`(False, {"error": "Error: <msg>"})`.  (The randomized exponential waits
between attempts, `wait_random_exponential(multiplier=1, max=40)`, are
real-time behaviour outside the state model.) -/
theorem c5_gateway_amended (env : ModelEnv) (reg : CallableRegistry)
    (username query anthropic_token : String) (history : Option (List Message))
    (e0 e1 e2 : String) (r : List ContentBlock)
    (h0 : env.respond (history.getD []) 0 = .error e0)
    (h1 : env.respond (history.getD []) 1 = .error e1) :
    (env.respond (history.getD []) 2 = .ok r →
      anthropic_chat_completion_request env (history.getD []) = .ok r)
    ∧ (env.respond (history.getD []) 2 = .error e2 →
        anthropic_chat_completion_request env (history.getD [])
          = .error e2)
    ∧ (anthropic_token ≠ "" → env.respond (history.getD []) 2 = .error e2 →
        ai env reg username query anthropic_token history = .error e2
        ∧ process_shell_query env reg username query anthropic_token history
            = (false, .error ("Error: " ++ e2))) := by
  have haccr : ∀ x, env.respond (history.getD []) 2 = x →
      anthropic_chat_completion_request env (history.getD []) = x := by
    intro x hx
    unfold anthropic_chat_completion_request
    rw [h0, h1, hx]
  refine ⟨haccr _, haccr _, ?_⟩
  intro htok h2
  have hai : ai env reg username query anthropic_token history
      = .error e2 := by
    unfold ai
    rw [if_neg htok]
    exact aiLoop_budget_error env reg 6 (history.getD []) "" 0 e2
      (by omega) (haccr _ h2)
  refine ⟨hai, ?_⟩
  unfold process_shell_query
  rw [hai]

/-- C5 amended, witness: the always-failing gateway `c5envFail`. -/
theorem c5_gateway_amended_witness :
    (c5envFail.respond ((some [userMsg "q"]).getD []) 2
        = .ok [ContentBlock.textBlock "x"] →
      anthropic_chat_completion_request c5envFail
          ((some [userMsg "q"]).getD [])
        = .ok [ContentBlock.textBlock "x"])
    ∧ (c5envFail.respond ((some [userMsg "q"]).getD []) 2 = .error "boom" →
        anthropic_chat_completion_request c5envFail
            ((some [userMsg "q"]).getD [])
          = .error "boom")
    ∧ (("tok" : String) ≠ "" →
        c5envFail.respond ((some [userMsg "q"]).getD []) 2 = .error "boom" →
        ai c5envFail [] "anonymous" "help" "tok" (some [userMsg "q"])
            = .error "boom"
        ∧ process_shell_query c5envFail [] "anonymous" "help" "tok"
              (some [userMsg "q"])
            = (false, .error ("Error: " ++ "boom"))) :=
  c5_gateway_amended c5envFail [] "anonymous" "help" "tok"
    (some [userMsg "q"]) "boom" "boom" "boom" [ContentBlock.textBlock "x"]
    rfl rfl

unseal aiLoop in
/-- C3 counterexample: a (non-final) model response with no tool calls and
no text makes `ai` return `(True, {"response": ""})` — success with an
empty answer.  The source's terminal-success branch (src/aifunc.py lines
132-135) has no emptiness check, so no application-level error is
raised. -/
theorem c3_empty_answer_counterexample :
    ai c3envEmpty regT "anonymous" "help" "tok" (some [userMsg "q"])
      = .ok ([userMsg "q"], .success "") := rfl

unseal aiLoop in
/-- C3 amended: if a non-final model response has no tool calls, `ai`
returns success with the stripped accumulated text even when that text is
empty (no "no content produced" error exists); only the final forced call
is checked: when it yields no text, the operation fails with
`(False, {"error": "No text content in Anthropic final response"})`, as
the run against the always-tool-calling, never-texting model `c3envTool`
shows. -/
theorem c3_empty_answer_amended :
    (∀ (env : ModelEnv) (reg : CallableRegistry)
       (username query anthropic_token : String)
       (history : Option (List Message)) (content : List ContentBlock),
      anthropic_token ≠ "" →
      anthropic_chat_completion_request env (history.getD []) = .ok content →
      (collectCalls content).isEmpty = true →
      ai env reg username query anthropic_token history
        = .ok (history.getD [], .success (pyStrip (collectText content))))
    ∧ ∃ ms, ai c3envTool regT "anonymous" "help" "tok" (some [userMsg "q"])
        = .ok (ms, .failure "No text content in Anthropic final response") := by
  refine ⟨?_, ⟨_, rfl⟩⟩
  intro env reg username query anthropic_token history content htok hok hnc
  unfold ai
  rw [if_neg htok]
  show aiLoop env reg 6 (history.getD []) "" 0 = _
  rw [aiLoop_no_calls env reg 6 (history.getD []) "" 0 content
      (by omega) hok hnc]
  rw [show ("" ++ collectText content) = collectText content from
      String.ext (by simp [String.data_append])]

/-- C3 amended, witness: the general branch instantiated at the no-content
model `c3envEmpty`. -/
theorem c3_empty_answer_amended_witness :
    ai c3envEmpty regT "anonymous" "help" "tok" (some [userMsg "q"])
      = .ok ([userMsg "q"], .success (pyStrip (collectText []))) :=
  c3_empty_answer_amended.1 c3envEmpty regT "anonymous" "help" "tok"
    (some [userMsg "q"]) [] (by decide) rfl rfl

unseal aiLoop in
/-- C6 counterexample: the accumulated text is never reset inside the
loop, so the assistant turn of the second tool-bearing iteration contains
the concatenated text `"ab"` of both iterations, not just this iteration's
`"b"`; the terminal answer likewise is the full accumulation `"abc"`. -/
theorem c6_text_reset_counterexample :
    ai c6env regT "anonymous" "help" "tok" (some [userMsg "q"])
      = .ok (c6transcript, .success "abc")
    ∧ c6transcript[3]?
        = some { role := "assistant", content :=
            [MContent.text "ab", MContent.tool_use "i2" "t" []] }
    ∧ ("ab" : String) ≠ "b" :=
  ⟨rfl, rfl, by decide⟩

/-- C6 amended: at the end of a tool-bearing iteration the accumulated
text is carried forward unchanged (never reset): the assistant turn the
iteration appends holds the stripped concatenation of all text so far, and
the next iteration of the loop starts with that same concatenation as its
accumulated text. -/
theorem c6_text_reset_amended (env : ModelEnv) (reg : CallableRegistry)
    (mx : Nat) (msgs : List Message) (tc : String) (count : Nat)
    (content : List ContentBlock) (h : count < mx)
    (heq : anthropic_chat_completion_request env msgs = .ok content)
    (hfc : ¬(collectCalls content).isEmpty = true)
    (hne : pyStrip (tc ++ collectText content) ≠ "") :
    aiLoop env reg mx msgs tc count
      = aiLoop env reg mx
          (msgs
            ++ [{ role := "assistant", content :=
                  MContent.text (pyStrip (tc ++ collectText content))
                    :: (collectCalls content).map fun fc =>
                        MContent.tool_use fc.id fc.name
                          (removeSpinner fc.arguments) }]
            ++ toolResultMessages (collectCalls content)
                (functionResults reg (collectCalls content) (env.sched msgs)))
          (tc ++ collectText content)
          (count + (collectCalls content).length) := by
  rw [aiLoop_step env reg mx msgs tc count content h heq hfc]
  have hac : assistantContent (tc ++ collectText content)
      (collectCalls content)
      = MContent.text (pyStrip (tc ++ collectText content))
          :: (collectCalls content).map fun fc =>
              MContent.tool_use fc.id fc.name (removeSpinner fc.arguments) := by
    unfold assistantContent
    rw [if_pos hne]
    rfl
  unfold stepMessages
  rw [hac]
  rfl

/-- C6 amended, witness: the first iteration against `c6env` with
previously accumulated text `"x"`: the appended assistant turn holds
`"xa"`, and the loop is re-entered with text `"xa"`. -/
theorem c6_text_reset_amended_witness :
    aiLoop c6env regT 6 [userMsg "q"] "x" 0
      = aiLoop c6env regT 6
          ([userMsg "q"]
            ++ [{ role := "assistant", content :=
                  MContent.text (pyStrip ("x" ++ collectText
                    [ContentBlock.textBlock "a",
                     ContentBlock.toolUseBlock "i1" "t" []]))
                    :: (collectCalls
                        [ContentBlock.textBlock "a",
                         ContentBlock.toolUseBlock "i1" "t" []]).map fun fc =>
                        MContent.tool_use fc.id fc.name
                          (removeSpinner fc.arguments) }]
            ++ toolResultMessages
                (collectCalls
                  [ContentBlock.textBlock "a",
                   ContentBlock.toolUseBlock "i1" "t" []])
                (functionResults regT
                  (collectCalls
                    [ContentBlock.textBlock "a",
                     ContentBlock.toolUseBlock "i1" "t" []])
                  (c6env.sched [userMsg "q"])))
          ("x" ++ collectText
            [ContentBlock.textBlock "a",
             ContentBlock.toolUseBlock "i1" "t" []])
          (0 + (collectCalls
            [ContentBlock.textBlock "a",
             ContentBlock.toolUseBlock "i1" "t" []]).length) :=
  c6_text_reset_amended c6env regT 6 [userMsg "q"] "x" 0
    [ContentBlock.textBlock "a", ContentBlock.toolUseBlock "i1" "t" []]
    (by decide) rfl (by decide) (by decide)

unseal aiLoop in
/-- C1 counterexample: against a model whose single turn requests 7 tool
calls, the loop issues all 7 — more than `maxCalls = 6` — because the
budget is only checked before a turn (`while function_call_count <
max_function_calls`), never against the size of the turn's batch.  The
run returns normally with 7 tool-result turns in the transcript. -/
theorem c1_budget_counterexample :
    ai c1env7 regT "anonymous" "help" "tok" (some [userMsg "q"])
      = .ok (c1transcript7, .success "done")
    ∧ toolResultCount c1transcript7 = 7
    ∧ ¬(toolResultCount c1transcript7 ≤ 6) :=
  ⟨rfl, rfl, by decide⟩

unseal aiLoop in
/-- C1 amended: the loop enters a tool-bearing iteration only while fewer
than `maxCalls = 6` calls have been issued, so a run issues at most
`6 - 1 + k` tool calls when every model turn carries at most `k`; the cap
of exactly 6 holds only per-entry, not for the total.  The spec's example
is exact as stated: against a model requesting exactly 2 tool calls per
turn (`c1env2`), the loop performs exactly 3 tool-bearing iterations (three
assistant turns with two tool-result turns each) and then one final
text-only call whose text is the answer. -/
theorem c1_budget_amended :
    (∀ (env : ModelEnv) (reg : CallableRegistry)
       (username query anthropic_token : String)
       (history : Option (List Message)) (k : Nat) (ms : List Message)
       (out : AiOutcome),
      (∀ msgs r, anthropic_chat_completion_request env msgs = .ok r →
        (collectCalls r).length ≤ k) →
      ai env reg username query anthropic_token history = .ok (ms, out) →
      toolResultCount ms ≤ toolResultCount (history.getD []) + 5 + k)
    ∧ ai c1env2 regT "anonymous" "help" "tok" (some [userMsg "q"])
        = .ok (c1transcript2, .success "done")
    ∧ toolResultCount c1transcript2 = 6 := by
  refine ⟨?_, rfl, rfl⟩
  intro env reg username query anthropic_token history k ms out hk hrun
  unfold ai at hrun
  by_cases htok : anthropic_token = ""
  · rw [if_pos htok] at hrun
    cases hrun
  · rw [if_neg htok] at hrun
    have hb := aiLoop_toolResultCount_le env reg 6 k hk (history.getD [])
      "" 0 ms out hrun
    norm_num at hb
    omega

/-- C1 amended, witness: the bound instantiated at `c1env2` (which requests
at most 2 calls per turn), using the concrete run of the theorem itself. -/
theorem c1_budget_amended_witness :
    toolResultCount c1transcript2
      ≤ toolResultCount ((some [userMsg "q"]).getD []) + 5 + 2 := by
  apply c1_budget_amended.1 c1env2 regT "anonymous" "help" "tok"
    (some [userMsg "q"]) 2 c1transcript2 (.success "done")
  · intro msgs r h
    unfold anthropic_chat_completion_request at h
    by_cases hc : msgs.length ≤ 7
    · simp only [c1env2, if_pos hc] at h
      cases h
      decide
    · simp only [c1env2, if_neg hc] at h
      cases h
      decide
  · exact c1_budget_amended.2.1

end CyberCog
